import Mathlib

/-!
Verification development for the opentui terminal-rendering core.

The repository ships its ABI surface in `src/packages/go/opentui.h`; the
function bodies live outside the repository snapshot, so every operation
below is modelled from the specification's contracts (each doc comment
records which part of the spec it follows).  Colors are four rational
channels in `[0,1]` (the ABI's `float[4]`), cells are the header's
`{codepoint, fg, bg, attributes}` quadruple, and grids are row-major lists.
-/

/-- RGBA color: four channels, each intended in `[0,1]`
(the header's `typedef float RGBA[4]`). -/
structure RGBA where
  r : ℚ
  g : ℚ
  b : ℚ
  a : ℚ
  deriving DecidableEq, Repr

/-- One terminal grid cell: codepoint, foreground, background, style
attribute bitmask (spec §3 Cell). Codepoint 0 denotes an empty cell. -/
structure Cell where
  codepoint : ℕ
  fg : RGBA
  bg : RGBA
  attributes : ℕ
  deriving DecidableEq, Repr

/-- Modelled from the spec: the empty/transparent cell
(codepoint 0, transparent colors, cleared attributes). -/
def emptyCell : Cell :=
  { codepoint := 0
    fg := ⟨0, 0, 0, 0⟩
    bg := ⟨0, 0, 0, 0⟩
    attributes := 0 }

/-- Modelled from the spec: `OptimizedBuffer` — a width x height row-major
cell grid plus the respect-alpha flag (spec §3). -/
structure OptimizedBuffer where
  width : ℕ
  height : ℕ
  cells : List Cell
  respectAlpha : Bool
  deriving DecidableEq, Repr

/-- Read one cell; out-of-range reads give the empty cell. -/
def OptimizedBuffer.getCell (buf : OptimizedBuffer) (x y : ℕ) : Cell :=
  buf.cells.getD (y * buf.width + x) emptyCell

/-- Modelled from the spec: standard "over" alpha compositing of `src`
over `dst` — `out = src*src.a + dst*(1-src.a)` per color channel, alpha
saturating at 1 (spec §4.1 `setCellWithAlphaBlending`). -/
def blendColors (src dst : RGBA) : RGBA :=
  { r := src.r * src.a + dst.r * (1 - src.a)
    g := src.g * src.a + dst.g * (1 - src.a)
    b := src.b * src.a + dst.b * (1 - src.a)
    a := min 1 (src.a + dst.a * (1 - src.a)) }

/-- Modelled from the spec: `bufferSetCellWithAlphaBlending` (spec §4.1).
If `respectAlpha` is false or the incoming `bg.a = 1`, direct overwrite;
otherwise the incoming background is composited over the existing
background, the foreground is blended against the resulting background
when its alpha is below 1, and an empty incoming codepoint preserves the
existing glyph.  Out-of-bounds coordinates are a no-op, not an error. -/
def bufferSetCellWithAlphaBlending (buf : OptimizedBuffer) (x y : ℕ)
    (ch : ℕ) (fg bg : RGBA) (attributes : ℕ) : OptimizedBuffer :=
  if x < buf.width ∧ y < buf.height then
    let i := y * buf.width + x
    let old := buf.cells.getD i emptyCell
    let newCell :=
      if ¬buf.respectAlpha ∨ bg.a = 1 then
        { codepoint := ch, fg := fg, bg := bg, attributes := attributes }
      else
        let newBg := blendColors bg old.bg
        let newFg := if fg.a < 1 then blendColors fg newBg else fg
        { codepoint := if ch = 0 then old.codepoint else ch
          fg := newFg
          bg := newBg
          attributes := attributes }
    { buf with cells := buf.cells.set i newCell }
  else
    buf

/-- Modelled from the spec: well-formedness invariant of spec §3,
`width*height == len(cells)`. -/
def OptimizedBuffer.wf (buf : OptimizedBuffer) : Prop :=
  buf.cells.length = buf.width * buf.height

/-- Modelled from the spec: `bufferResize` (spec §4.1 `resize`): content
inside the old∩new rectangle is preserved verbatim, content outside it is
the empty cell. -/
def bufferResize (buf : OptimizedBuffer) (w h : ℕ) : OptimizedBuffer :=
  { width := w
    height := h
    cells := (List.range (w * h)).map (fun i =>
      if i % w < buf.width ∧ i / w < buf.height then
        buf.getCell (i % w) (i / w)
      else
        emptyCell)
    respectAlpha := buf.respectAlpha }

/-- Modelled from the spec: `bufferDrawText` (spec §4.1 `drawText`).
The text is already decoded to codepoints; the cursor starts at `(x,y)`
and advances along the row by the active WidthModel `wfn`; every cell
write is silently clipped at the buffer edges; a width-2 codepoint also
writes a continuation cell (empty codepoint, same colors) at the next
column.  The cursor only ever moves horizontally: drawing never wraps
into another row. -/
def bufferDrawText (buf : OptimizedBuffer) (wfn : ℕ → ℕ) (cps : List ℕ)
    (x y : ℕ) (fg bg : RGBA) (attributes : ℕ) : OptimizedBuffer :=
  match cps with
  | [] => buf
  | cp :: rest =>
    let cw := wfn cp
    let buf1 := bufferSetCellWithAlphaBlending buf x y cp fg bg attributes
    let buf2 :=
      if cw = 2 then
        bufferSetCellWithAlphaBlending buf1 (x + 1) y 0 fg bg attributes
      else
        buf1
    bufferDrawText buf2 wfn rest (x + cw) y fg bg attributes

/-- The renderer lifecycle of spec §4.3:
`Uninitialized → Ready → (render)* → Destroyed`. -/
inductive RendererState where
  | Uninitialized
  | Ready
  | Destroyed
  deriving DecidableEq, Repr

/-- Modelled from the spec: `CliRenderer` state relevant to the diff loop
(spec §3): dimensions, front/back buffers, lifecycle state. -/
structure CliRenderer where
  width : ℕ
  height : ℕ
  frontBuffer : OptimizedBuffer
  backBuffer : OptimizedBuffer
  state : RendererState
  deriving Repr

/-- Modelled from the spec: a cell is dirty exactly when its codepoint,
fg, bg, or attributes differ between back and front buffer (spec §4.3
step 2). -/
def cellIsDirty (back front : Cell) : Bool :=
  decide (back.codepoint ≠ front.codepoint ∨ back.fg ≠ front.fg ∨
    back.bg ≠ front.bg ∨ back.attributes ≠ front.attributes)

/-- All coordinates of a w x h grid, row-major. -/
def allCoords (w h : ℕ) : List (ℕ × ℕ) :=
  (List.range h).flatMap (fun y => (List.range w).map (fun x => (x, y)))

/-- Modelled from the spec: the set of dirty cells emitted by one
`render` call (spec §4.3 steps 1-2): every cell when `force`, otherwise
the cells where back and front differ. -/
def computeDirtyCells (r : CliRenderer) (force : Bool) : List (ℕ × ℕ) :=
  (allCoords r.width r.height).filter (fun p =>
    force || cellIsDirty (r.backBuffer.getCell p.1 p.2)
      (r.frontBuffer.getCell p.1 p.2))

/-- Modelled from the spec: `render(force)` (spec §4.3): in the Ready
state it emits the dirty cells and swaps front/back buffer identity;
otherwise it is a no-op emitting nothing. -/
def render (r : CliRenderer) (force : Bool) :
    CliRenderer × List (ℕ × ℕ) :=
  if r.state = RendererState.Ready then
    ({ r with frontBuffer := r.backBuffer, backBuffer := r.frontBuffer },
      computeDirtyCells r force)
  else
    (r, [])

/-- Modelled from the spec: `HitGrid` (spec §3): a grid of opaque ids,
id 0 meaning "no hit". -/
structure HitGrid where
  width : ℕ
  height : ℕ
  ids : List ℕ
  deriving DecidableEq, Repr

/-- A cleared hit grid: every id is 0. -/
def createHitGrid (w h : ℕ) : HitGrid :=
  { width := w, height := h, ids := List.replicate (w * h) 0 }

/-- Whether grid cell `(cx,cy)` lies in the rectangle with (possibly
negative) origin `(x0,y0)` and extent `rw x rh`. -/
def inRect (x0 y0 : ℤ) (rw rh : ℕ) (cx cy : ℕ) : Bool :=
  decide (x0 ≤ (cx : ℤ) ∧ (cx : ℤ) < x0 + rw ∧ y0 ≤ (cy : ℤ) ∧
    (cy : ℤ) < y0 + rh)

/-- Modelled from the spec: `addToHitGrid` (spec §4.4): stamps `sid`
over the requested rectangle clipped to the grid; the origin is signed
(`int32_t` in the header), so the stored portion is the intersection
with the grid. -/
def addToHitGrid (g : HitGrid) (x0 y0 : ℤ) (rw rh sid : ℕ) : HitGrid :=
  { g with ids := (List.range (g.width * g.height)).map (fun i =>
      if inRect x0 y0 rw rh (i % g.width) (i / g.width) = true then
        sid
      else
        g.ids.getD i 0) }

/-- Modelled from the spec: `checkHit` (spec §4.4): unsigned coordinates
(`uint32_t` in the header); returns the stored id, or 0 beyond the grid
(total, never an error). -/
def checkHit (g : HitGrid) (x y : ℕ) : ℕ :=
  if x < g.width ∧ y < g.height then g.ids.getD (y * g.width + x) 0 else 0

/-- One `addToHitGrid` call's arguments. -/
structure Stamp where
  x : ℤ
  y : ℤ
  w : ℕ
  h : ℕ
  sid : ℕ
  deriving DecidableEq, Repr

/-- Replay a frame's sequence of `addToHitGrid` calls. -/
def applyStamps (g : HitGrid) (stamps : List Stamp) : HitGrid :=
  stamps.foldl (fun g s => addToHitGrid g s.x s.y s.w s.h s.sid) g

/-- Whether a stamp's (unclipped) rectangle contains grid cell `(x,y)`. -/
def stampContains (s : Stamp) (x y : ℕ) : Bool :=
  inRect s.x s.y s.w s.h x y

/-- The id of the last stamp in the sequence containing `(x,y)`, or 0
when none does (spec §4.4 last-write-wins). -/
def lastStampId (stamps : List Stamp) (x y : ℕ) : ℕ :=
  stamps.foldl (fun acc s => if stampContains s x y = true then s.sid else acc) 0

/-- One logical `TextBuffer` position with its style: codepoint, fg, bg
and the 16-bit attribute mask of spec §3 (the header exposes this
storage through `textBufferGetCharPtr`/`...FgPtr`/`...BgPtr`/
`...AttributesPtr`). -/
structure TextCell where
  codepoint : ℕ
  fg : RGBA
  bg : RGBA
  attr : ℕ
  deriving DecidableEq, Repr

/-- Selection overlay of spec §3: logical codepoint offsets plus
optional color overrides. -/
structure TextSelection where
  selStart : ℕ
  selEnd : ℕ
  bgOverride : Option RGBA
  fgOverride : Option RGBA
  deriving DecidableEq, Repr

/-- Default style of a `TextBuffer` (spec §3 `defaults: (fg,bg,attr)`). -/
structure TextDefaults where
  fg : RGBA
  bg : RGBA
  attr : ℕ
  deriving DecidableEq, Repr

/-- Modelled from the spec: the fresh defaults a newly created
`TextBuffer` carries (opaque white on transparent, no attributes). -/
def freshDefaults : TextDefaults :=
  { fg := ⟨1, 1, 1, 1⟩, bg := ⟨0, 0, 0, 0⟩, attr := 0 }

/-- Modelled from the spec: `TextBuffer` (spec §3): styled logical
cells, a capacity bound, cached line info valid only after
`finalizeLineInfo` (`none` when invalid), an optional selection overlay
and the default style. -/
structure TextBuffer where
  cells : List TextCell
  capacity : ℕ
  selection : Option TextSelection
  defaults : TextDefaults
  lineInfo : Option (List ℕ × List ℕ)
  deriving DecidableEq, Repr

/-- Logical codepoint count (header `textBufferGetLength`). -/
def TextBuffer.length (tb : TextBuffer) : ℕ :=
  tb.cells.length

/-- Modelled from the spec: `textBufferConcat` (spec §4.2 `concat`): a
fresh buffer holding `a`'s styled cells followed by `b`'s; defaults and
selection are not copied (fresh defaults, no selection), and the cached
line info starts invalid. -/
def textBufferConcat (a b : TextBuffer) : TextBuffer :=
  { cells := a.cells ++ b.cells
    capacity := a.cells.length + b.cells.length
    selection := none
    defaults := freshDefaults
    lineInfo := none }

/-- Error taxonomy of spec §7 relevant to buffer mutations. -/
inductive RendererError where
  | InvalidDimensions
  | IndexOutOfRange
  | UnsupportedFormat
  | BufferTooSmall
  deriving DecidableEq, Repr

/-- Convert one 0-255 byte to a rational color channel in `[0,1]`. -/
def byteToChannel (b : ℕ) : ℚ :=
  (b : ℚ) / 255

/-- Read one RGBA pixel (four bytes) from raw pixel data. -/
def readPixel (data : List ℕ) (off : ℕ) : RGBA :=
  ⟨byteToChannel (data.getD off 0), byteToChannel (data.getD (off + 1) 0),
    byteToChannel (data.getD (off + 2) 0),
    byteToChannel (data.getD (off + 3) 0)⟩

/-- Modelled from the spec: the half-block downsampling pass of
`bufferDrawSuperSampleBuffer` (spec §4.1): each cell at or beyond the
`(x,y)` anchor takes the upper-half-block glyph with the top pixel of
its 1x2 tile as foreground and the bottom pixel as background, reading
`alignedBytesPerRow`-strided rows of 4-byte pixels.  (The exact
glyph-selection heuristic is the spec's stated open question; this is
one concrete faithful instance.) -/
def applySuperSample (buf : OptimizedBuffer) (x y : ℕ) (data : List ℕ)
    (abpr : ℕ) : OptimizedBuffer :=
  { buf with cells := (List.range (buf.width * buf.height)).map (fun i =>
      let cx := i % buf.width
      let cy := i / buf.width
      if x ≤ cx ∧ y ≤ cy then
        { codepoint := 0x2580
          fg := readPixel data (2 * (cy - y) * abpr + (cx - x) * 4)
          bg := readPixel data ((2 * (cy - y) + 1) * abpr + (cx - x) * 4)
          attributes := 0 }
      else
        buf.getCell cx cy) }

/-- Modelled from the spec: `bufferDrawSuperSampleBuffer` (spec §4.1 and
§7): unknown `format` tags fail with `UnsupportedFormat`; a payload
shorter than the geometry requires fails with `BufferTooSmall`; both
checks precede any mutation, so a failed call returns the buffer
unchanged together with the error (atomic-or-nothing).  Formats 0 and 1
are the two supported RGBA layouts. -/
def bufferDrawSuperSampleBuffer (buf : OptimizedBuffer) (x y : ℕ)
    (data : List ℕ) (format : ℕ) (abpr : ℕ) :
    OptimizedBuffer × Option RendererError :=
  if format ≠ 0 ∧ format ≠ 1 then
    (buf, some RendererError.UnsupportedFormat)
  else if data.length < abpr * (2 * (buf.height - y)) then
    (buf, some RendererError.BufferTooSmall)
  else
    (applySuperSample buf x y data abpr, none)

/-! Concrete fixtures used to exercise the operations on closed inputs. -/

/-- Opaque black. -/
def black : RGBA := ⟨0, 0, 0, 1⟩

/-- Opaque white. -/
def white : RGBA := ⟨1, 1, 1, 1⟩

/-- A 1x1 respect-alpha buffer holding glyph `A` in opaque black on
opaque black. -/
def bufA : OptimizedBuffer :=
  { width := 1, height := 1, cells := [⟨65, black, black, 0⟩],
    respectAlpha := true }

/-- A 2x2 buffer with four distinct glyphs, respect-alpha off. -/
def buf2x2 : OptimizedBuffer :=
  { width := 2, height := 2
    cells := [⟨65, black, black, 0⟩, ⟨66, black, black, 0⟩,
      ⟨67, black, black, 0⟩, ⟨68, black, black, 0⟩]
    respectAlpha := false }

/-- A width model under which the CJK codepoint `0x4E00` is two columns
wide and everything else one. -/
def cjkWidthModel : ℕ → ℕ :=
  fun cp => if cp = 0x4E00 then 2 else 1

/-- A Ready renderer whose front and back buffers are the same 2x2
grid, i.e. nothing was mutated since the previous render. -/
def quietRenderer : CliRenderer :=
  { width := 2, height := 2, frontBuffer := buf2x2, backBuffer := buf2x2,
    state := RendererState.Ready }

/-! Helper lemmas about grid indexing and the modelled operations. -/

theorem getD_map_range {α : Type} (n i : ℕ) (f : ℕ → α) (d : α)
    (hi : i < n) : ((List.range n).map f).getD i d = f i := by
  simp [List.getD_eq_getElem?_getD, List.getElem?_map, List.getElem?_range hi]

theorem rowIndex_mod (x y w : ℕ) (hx : x < w) : (y * w + x) % w = x := by
  rw [Nat.add_comm, Nat.add_mul_mod_self_right, Nat.mod_eq_of_lt hx]

theorem rowIndex_div (x y w : ℕ) (hx : x < w) : (y * w + x) / w = y := by
  have hw : 0 < w := Nat.lt_of_le_of_lt (Nat.zero_le x) hx
  rw [Nat.add_comm, Nat.add_mul_div_right x y hw, Nat.div_eq_of_lt hx,
    Nat.zero_add]

theorem rowIndex_lt (x y w h : ℕ) (hx : x < w) (hy : y < h) :
    y * w + x < w * h := by
  calc y * w + x < y * w + w := by omega
    _ = (y + 1) * w := by ring
    _ ≤ h * w := Nat.mul_le_mul_right w hy
    _ = w * h := Nat.mul_comm h w

theorem rowIndex_inj (x x' y y' w : ℕ) (hx : x < w) (hx' : x' < w)
    (h : y * w + x = y' * w + x') : x = x' ∧ y = y' := by
  constructor
  · have := congrArg (· % w) h
    simpa [rowIndex_mod x y w hx, rowIndex_mod x' y' w hx'] using this
  · have := congrArg (· / w) h
    simpa [rowIndex_div x y w hx, rowIndex_div x' y' w hx'] using this

theorem setCellWithAlphaBlending_width (buf : OptimizedBuffer)
    (x y ch : ℕ) (fg bg : RGBA) (attributes : ℕ) :
    (bufferSetCellWithAlphaBlending buf x y ch fg bg attributes).width =
      buf.width := by
  unfold bufferSetCellWithAlphaBlending
  split <;> rfl

theorem setCellWithAlphaBlending_height (buf : OptimizedBuffer)
    (x y ch : ℕ) (fg bg : RGBA) (attributes : ℕ) :
    (bufferSetCellWithAlphaBlending buf x y ch fg bg attributes).height =
      buf.height := by
  unfold bufferSetCellWithAlphaBlending
  split <;> rfl

theorem getD_set_same {α : Type} (l : List α) (i : ℕ) (c d : α)
    (h : i < l.length) : (l.set i c).getD i d = c := by
  simp [List.getD_eq_getElem?_getD, List.getElem?_set_self', h, Option.getD]

theorem getD_set_other {α : Type} (l : List α) (i j : ℕ) (c d : α)
    (h : i ≠ j) : (l.set i c).getD j d = l.getD j d := by
  simp [List.getD_eq_getElem?_getD, List.getElem?_set_ne h]

theorem setCellWithAlphaBlending_getCell_other (buf : OptimizedBuffer)
    (x y ch : ℕ) (fg bg : RGBA) (attributes : ℕ) (x' y' : ℕ)
    (hx' : x' < buf.width) (hne : ¬(x' = x ∧ y' = y)) :
    (bufferSetCellWithAlphaBlending buf x y ch fg bg attributes).getCell x' y' =
      buf.getCell x' y' := by
  unfold bufferSetCellWithAlphaBlending
  by_cases hin : x < buf.width ∧ y < buf.height
  · rw [if_pos hin]
    show (buf.cells.set (y * buf.width + x) _).getD
        (y' * buf.width + x') emptyCell = _
    refine getD_set_other _ _ _ _ _ (fun he => hne ?_)
    have := rowIndex_inj x x' y y' buf.width hin.1 hx' he
    exact ⟨this.1.symm, this.2.symm⟩
  · rw [if_neg hin]

theorem setCellWithAlphaBlending_getCell_self (buf : OptimizedBuffer)
    (x y ch : ℕ) (fg bg : RGBA) (attributes : ℕ) (hwf : buf.wf)
    (hx : x < buf.width) (hy : y < buf.height) :
    (bufferSetCellWithAlphaBlending buf x y ch fg bg attributes).getCell x y =
      (if ¬buf.respectAlpha ∨ bg.a = 1 then
        { codepoint := ch, fg := fg, bg := bg, attributes := attributes }
      else
        { codepoint := if ch = 0 then (buf.getCell x y).codepoint else ch
          fg := if fg.a < 1 then
              blendColors fg (blendColors bg (buf.getCell x y).bg)
            else fg
          bg := blendColors bg (buf.getCell x y).bg
          attributes := attributes }) := by
  unfold bufferSetCellWithAlphaBlending
  rw [if_pos ⟨hx, hy⟩]
  show (buf.cells.set (y * buf.width + x) _).getD
      (y * buf.width + x) emptyCell = _
  rw [getD_set_same _ _ _ _ (by rw [hwf]; exact rowIndex_lt x y _ _ hx hy)]
  rfl

theorem setCellWithAlphaBlending_oob (buf : OptimizedBuffer)
    (x y ch : ℕ) (fg bg : RGBA) (attributes : ℕ)
    (h : ¬(x < buf.width ∧ y < buf.height)) :
    bufferSetCellWithAlphaBlending buf x y ch fg bg attributes = buf := by
  unfold bufferSetCellWithAlphaBlending
  rw [if_neg h]

theorem drawText_getCell_other_row (wfn : ℕ → ℕ) (cps : List ℕ) :
    ∀ (buf : OptimizedBuffer) (x y : ℕ) (fg bg : RGBA) (attributes : ℕ)
      (x' y' : ℕ), x' < buf.width → y' ≠ y →
      (bufferDrawText buf wfn cps x y fg bg attributes).getCell x' y' =
        buf.getCell x' y' := by
  induction cps with
  | nil => intro buf x y fg bg attributes x' y' _ _; rfl
  | cons cp rest ih =>
    intro buf x y fg bg attributes x' y' hx' hrow
    have hb1 :
        (bufferSetCellWithAlphaBlending buf x y cp fg bg attributes).getCell
          x' y' = buf.getCell x' y' :=
      setCellWithAlphaBlending_getCell_other buf x y cp fg bg attributes x' y'
        hx' (fun hc => hrow hc.2)
    have hw1 :
        (bufferSetCellWithAlphaBlending buf x y cp fg bg attributes).width =
          buf.width :=
      setCellWithAlphaBlending_width buf x y cp fg bg attributes
    by_cases hcw : wfn cp = 2
    · show (bufferDrawText _ wfn rest (x + wfn cp) y fg bg attributes).getCell
          x' y' = buf.getCell x' y'
      rw [if_pos hcw]
      set buf1 := bufferSetCellWithAlphaBlending buf x y cp fg bg attributes
      have hb2 :
          (bufferSetCellWithAlphaBlending buf1 (x + 1) y 0 fg bg
            attributes).getCell x' y' = buf.getCell x' y' := by
        rw [setCellWithAlphaBlending_getCell_other buf1 (x + 1) y 0 fg bg
          attributes x' y' (by rw [hw1]; exact hx') (fun hc => hrow hc.2)]
        exact hb1
      rw [ih _ (x + wfn cp) y fg bg attributes x' y'
        (by rw [setCellWithAlphaBlending_width, hw1]; exact hx') hrow]
      exact hb2
    · show (bufferDrawText _ wfn rest (x + wfn cp) y fg bg attributes).getCell
          x' y' = buf.getCell x' y'
      rw [if_neg hcw]
      rw [ih _ (x + wfn cp) y fg bg attributes x' y'
        (by rw [hw1]; exact hx') hrow]
      exact hb1

theorem drawText_row_oob (wfn : ℕ → ℕ) (cps : List ℕ) :
    ∀ (buf : OptimizedBuffer) (x y : ℕ) (fg bg : RGBA) (attributes : ℕ),
      buf.height ≤ y →
      bufferDrawText buf wfn cps x y fg bg attributes = buf := by
  induction cps with
  | nil => intro buf x y fg bg attributes _; rfl
  | cons cp rest ih =>
    intro buf x y fg bg attributes hy
    have h1 : bufferSetCellWithAlphaBlending buf x y cp fg bg attributes =
        buf :=
      setCellWithAlphaBlending_oob buf x y cp fg bg attributes
        (fun hc => absurd hc.2 (Nat.not_lt.mpr hy))
    by_cases hcw : wfn cp = 2
    · show bufferDrawText _ wfn rest (x + wfn cp) y fg bg attributes = buf
      rw [if_pos hcw, h1]
      rw [setCellWithAlphaBlending_oob buf (x + 1) y 0 fg bg attributes
        (fun hc => absurd hc.2 (Nat.not_lt.mpr hy))]
      exact ih buf (x + wfn cp) y fg bg attributes hy
    · show bufferDrawText _ wfn rest (x + wfn cp) y fg bg attributes = buf
      rw [if_neg hcw, h1]
      exact ih buf (x + wfn cp) y fg bg attributes hy

theorem mem_allCoords {w h : ℕ} {p : ℕ × ℕ} :
    p ∈ allCoords w h ↔ p.1 < w ∧ p.2 < h := by
  obtain ⟨x, y⟩ := p
  constructor
  · intro hp
    rcases List.mem_flatMap.mp hp with ⟨y1, hy1, hmem⟩
    rcases List.mem_map.mp hmem with ⟨x1, hx1, hxy⟩
    obtain ⟨rfl, rfl⟩ : x1 = x ∧ y1 = y := by
      constructor <;> [exact congrArg Prod.fst hxy; exact congrArg Prod.snd hxy]
    exact ⟨List.mem_range.mp hx1, List.mem_range.mp hy1⟩
  · intro ⟨hx, hy⟩
    exact List.mem_flatMap.mpr ⟨y, List.mem_range.mpr hy,
      List.mem_map.mpr ⟨x, List.mem_range.mpr hx, rfl⟩⟩

theorem checkHit_createHitGrid (w h x y : ℕ) :
    checkHit (createHitGrid w h) x y = 0 := by
  unfold checkHit createHitGrid
  split
  · show (List.replicate (w * h) 0).getD (y * w + x) 0 = 0
    rw [List.getD_eq_getElem?_getD, List.getElem?_replicate]
    split <;> rfl
  · rfl

theorem checkHit_oob (g : HitGrid) (x y : ℕ)
    (h : ¬(x < g.width ∧ y < g.height)) : checkHit g x y = 0 := by
  unfold checkHit
  rw [if_neg h]

theorem checkHit_addToHitGrid (g : HitGrid) (x0 y0 : ℤ) (rw rh sid : ℕ)
    (x y : ℕ) (hx : x < g.width) (hy : y < g.height) :
    checkHit (addToHitGrid g x0 y0 rw rh sid) x y =
      if inRect x0 y0 rw rh x y = true then sid else checkHit g x y := by
  show (if x < g.width ∧ y < g.height then
      ((List.range (g.width * g.height)).map _).getD (y * g.width + x) 0
    else 0) = _
  rw [if_pos ⟨hx, hy⟩,
    getD_map_range _ _ _ _ (rowIndex_lt x y g.width g.height hx hy)]
  simp only [rowIndex_mod x y g.width hx, rowIndex_div x y g.width hx]
  unfold checkHit
  rw [if_pos (⟨hx, hy⟩ : x < g.width ∧ y < g.height)]

theorem checkHit_applyStamps (stamps : List Stamp) :
    ∀ (g : HitGrid) (x y : ℕ), x < g.width → y < g.height →
      checkHit (applyStamps g stamps) x y =
        stamps.foldl
          (fun acc s => if stampContains s x y = true then s.sid else acc)
          (checkHit g x y) := by
  induction stamps with
  | nil => intro g x y _ _; rfl
  | cons s rest ih =>
    intro g x y hx hy
    show checkHit (applyStamps (addToHitGrid g s.x s.y s.w s.h s.sid) rest)
        x y = _
    rw [ih (addToHitGrid g s.x s.y s.w s.h s.sid) x y hx hy,
      checkHit_addToHitGrid g s.x s.y s.w s.h s.sid x y hx hy,
      List.foldl_cons]
    rfl

theorem lastStampId_of_no_hit (stamps : List Stamp) (x y : ℕ)
    (h : ∀ s ∈ stamps, stampContains s x y = false) :
    lastStampId stamps x y = 0 := by
  unfold lastStampId
  induction stamps with
  | nil => rfl
  | cons s rest ih =>
    rw [List.foldl_cons, h s (List.mem_cons_self s rest)]
    exact ih (fun s' hs' => h s' (List.mem_cons_of_mem s hs'))

theorem bufferResize_getCell (buf : OptimizedBuffer) (w h x y : ℕ)
    (hx : x < w) (hy : y < h) :
    (bufferResize buf w h).getCell x y =
      if x < buf.width ∧ y < buf.height then buf.getCell x y
      else emptyCell := by
  show ((List.range (w * h)).map _).getD (y * w + x) emptyCell = _
  rw [getD_map_range _ _ _ _ (rowIndex_lt x y w h hx hy)]
  simp only [rowIndex_mod x y w hx, rowIndex_div x y w hx]

theorem blendColors_transparent (src dst : RGBA) (h0 : src.a = 0)
    (hdst : dst.a ≤ 1) : blendColors src dst = dst := by
  unfold blendColors
  rw [h0]
  obtain ⟨dr, dg, db, da⟩ := dst
  simp only [RGBA.mk.injEq]
  refine ⟨by ring, by ring, by ring, ?_⟩
  rw [show (0 : ℚ) + da * (1 - 0) = da by ring]
  exact min_eq_right hdst

/-! The claims. -/

/-- C1: for every renderer in the Ready state, `render(force := false)`
with the back buffer cell-for-cell equal to the front buffer emits zero
dirty cells; and a cell is dirty exactly when its codepoint, fg, bg, or
attributes differ between back and front buffer. -/
theorem render_unchanged_emits_no_dirty_cells (r : CliRenderer)
    (hready : r.state = RendererState.Ready)
    (heq : ∀ x y, x < r.width → y < r.height →
      r.backBuffer.getCell x y = r.frontBuffer.getCell x y) :
    (render r false).2 = [] ∧
    ∀ back front : Cell, (cellIsDirty back front = true ↔
      (back.codepoint ≠ front.codepoint ∨ back.fg ≠ front.fg ∨
        back.bg ≠ front.bg ∨ back.attributes ≠ front.attributes)) := by
  constructor
  · show (if r.state = RendererState.Ready then (_, computeDirtyCells r false)
        else (r, [])).2 = []
    rw [if_pos hready]
    apply List.filter_eq_nil_iff.mpr
    intro p hp
    have hb := mem_allCoords.mp hp
    rw [heq p.1 p.2 hb.1 hb.2]
    simp [cellIsDirty]
  · intro back front
    simp [cellIsDirty]

/-- Closed instance of C1: a Ready renderer whose buffers are equal
emits zero dirty cells. -/
theorem render_unchanged_emits_no_dirty_cells_witness :
    (render quietRenderer false).2 = [] :=
  (render_unchanged_emits_no_dirty_cells quietRenderer rfl
    (fun _ _ _ _ => rfl)).1

/-- C2: with `respectAlpha` and incoming `bg.a < 1`, the written cell's
background is the incoming background composited over the existing one
by `out = src*src.a + dst*(1-src.a)` per channel with alpha saturating
at 1 (the definition of `blendColors`); in particular white at alpha
one-half over opaque black gives `(1/2,1/2,1/2,1)`. -/
theorem setCellWithAlphaBlending_composites_over (buf : OptimizedBuffer)
    (x y ch : ℕ) (fg bg : RGBA) (attributes : ℕ) (hwf : buf.wf)
    (hx : x < buf.width) (hy : y < buf.height)
    (hra : buf.respectAlpha = true) (ha : bg.a < 1) :
    ((bufferSetCellWithAlphaBlending buf x y ch fg bg
        attributes).getCell x y).bg =
      blendColors bg ((buf.getCell x y).bg) ∧
    blendColors ⟨1, 1, 1, 1/2⟩ ⟨0, 0, 0, 1⟩ = ⟨1/2, 1/2, 1/2, 1⟩ := by
  constructor
  · rw [setCellWithAlphaBlending_getCell_self buf x y ch fg bg attributes
      hwf hx hy]
    have hcond : ¬(¬buf.respectAlpha = true ∨ bg.a = 1) := by
      rw [hra]
      simp only [not_or]
      exact ⟨by simp, ne_of_lt ha⟩
    rw [if_neg hcond]
  · unfold blendColors
    norm_num

/-- Closed instance of C2: blending white `(1,1,1,1/2)` over a cell with
opaque black background. -/
theorem setCellWithAlphaBlending_composites_over_witness :
    ((bufferSetCellWithAlphaBlending bufA 0 0 0 white ⟨1, 1, 1, 1/2⟩
        0).getCell 0 0).bg =
      blendColors ⟨1, 1, 1, 1/2⟩ ((bufA.getCell 0 0).bg) ∧
    blendColors ⟨1, 1, 1, 1/2⟩ ⟨0, 0, 0, 1⟩ = ⟨1/2, 1/2, 1/2, 1⟩ :=
  setCellWithAlphaBlending_composites_over bufA 0 0 0 white ⟨1, 1, 1, 1/2⟩
    0 rfl (by decide) (by decide) rfl (by norm_num)

/-- C3: `resize(w,h)` preserves every cell of the old∩new rectangle
verbatim and makes every new-bounds cell outside that rectangle the
empty cell. -/
theorem bufferResize_preserves_overlap (buf : OptimizedBuffer)
    (w h x y : ℕ) (hx : x < w) (hy : y < h) :
    (x < buf.width ∧ y < buf.height →
      (bufferResize buf w h).getCell x y = buf.getCell x y) ∧
    (¬(x < buf.width ∧ y < buf.height) →
      (bufferResize buf w h).getCell x y = emptyCell) := by
  rw [bufferResize_getCell buf w h x y hx hy]
  constructor
  · intro hin
    rw [if_pos hin]
  · intro hout
    rw [if_neg hout]

/-- Closed instance of C3: resizing the 2x2 fixture to 3x1 keeps cell
`(0,0)` and pads cell `(2,0)` empty. -/
theorem bufferResize_preserves_overlap_witness :
    (bufferResize buf2x2 3 1).getCell 0 0 = buf2x2.getCell 0 0 ∧
    (bufferResize buf2x2 3 1).getCell 2 0 = emptyCell :=
  ⟨(bufferResize_preserves_overlap buf2x2 3 1 0 0 (by decide)
      (by decide)).1 (by decide),
    (bufferResize_preserves_overlap buf2x2 3 1 2 0 (by decide)
      (by decide)).2 (by decide)⟩

/-- C4: a `bufferDrawSuperSampleBuffer` call that fails (unsupported
format tag, or payload shorter than the geometry requires) returns the
target buffer exactly as it was before the call: atomic-or-nothing. -/
theorem drawSuperSampleBuffer_failure_atomic (buf : OptimizedBuffer)
    (x y : ℕ) (data : List ℕ) (format abpr : ℕ) (e : RendererError)
    (h : (bufferDrawSuperSampleBuffer buf x y data format abpr).2 =
      some e) :
    (bufferDrawSuperSampleBuffer buf x y data format abpr).1 = buf := by
  unfold bufferDrawSuperSampleBuffer at h ⊢
  by_cases h1 : format ≠ 0 ∧ format ≠ 1
  · rw [if_pos h1]
  · rw [if_neg h1] at h ⊢
    by_cases h2 : data.length < abpr * (2 * (buf.height - y))
    · rw [if_pos h2]
    · rw [if_neg h2] at h
      exact absurd h (by simp)

/-- Closed instance of C4: format tag 7 is unsupported and leaves the
buffer untouched. -/
theorem drawSuperSampleBuffer_failure_atomic_witness :
    (bufferDrawSuperSampleBuffer bufA 0 0 [] 7 4).1 = bufA :=
  drawSuperSampleBuffer_failure_atomic bufA 0 0 [] 7 4
    RendererError.UnsupportedFormat (by decide)

/-- C5: after replaying a frame's `addToHitGrid` calls on a cleared
grid, `checkHit` returns the id of the last call whose clipped
rectangle contains the probed in-bounds coordinate, 0 when no stamp
contains it; in particular stamping id 1 over `(0,0,10,10)` then id 2
over `(5,5,10,10)` makes `checkHit(5,5)` return 2. -/
theorem checkHit_last_write_wins (w h : ℕ) (stamps : List Stamp)
    (x y : ℕ) (hx : x < w) (hy : y < h) :
    checkHit (applyStamps (createHitGrid w h) stamps) x y =
      lastStampId stamps x y ∧
    ((∀ s ∈ stamps, stampContains s x y = false) →
      checkHit (applyStamps (createHitGrid w h) stamps) x y = 0) ∧
    checkHit (applyStamps (createHitGrid 20 20)
      [⟨0, 0, 10, 10, 1⟩, ⟨5, 5, 10, 10, 2⟩]) 5 5 = 2 := by
  have hmain : checkHit (applyStamps (createHitGrid w h) stamps) x y =
      lastStampId stamps x y := by
    rw [checkHit_applyStamps stamps (createHitGrid w h) x y hx hy,
      checkHit_createHitGrid]
    rfl
  refine ⟨hmain, fun hnone => ?_, ?_⟩
  · rw [hmain]
    exact lastStampId_of_no_hit stamps x y hnone
  · rw [checkHit_applyStamps [⟨0, 0, 10, 10, 1⟩, ⟨5, 5, 10, 10, 2⟩]
      (createHitGrid 20 20) 5 5 (by decide) (by decide),
      checkHit_createHitGrid]
    decide

/-- Closed instance of C5: the spec's two-stamp scenario. -/
theorem checkHit_last_write_wins_witness :
    checkHit (applyStamps (createHitGrid 20 20)
      [⟨0, 0, 10, 10, 1⟩, ⟨5, 5, 10, 10, 2⟩]) 5 5 =
      lastStampId [⟨0, 0, 10, 10, 1⟩, ⟨5, 5, 10, 10, 2⟩] 5 5 :=
  (checkHit_last_write_wins 20 20
    [⟨0, 0, 10, 10, 1⟩, ⟨5, 5, 10, 10, 2⟩] 5 5 (by decide) (by decide)).1

/-- C6: `concat(a,b)` has length `a.length + b.length`, holds `a`'s
styled cells followed by `b`'s verbatim, carries no selection, fresh
defaults and invalid cached line info, and respects `length ≤
capacity`. -/
theorem textBufferConcat_spec (a b : TextBuffer) :
    (textBufferConcat a b).length = a.length + b.length ∧
    (textBufferConcat a b).cells = a.cells ++ b.cells ∧
    (textBufferConcat a b).selection = none ∧
    (textBufferConcat a b).defaults = freshDefaults ∧
    (textBufferConcat a b).lineInfo = none ∧
    (textBufferConcat a b).length ≤ (textBufferConcat a b).capacity := by
  refine ⟨?_, rfl, rfl, rfl, rfl, ?_⟩
  · exact List.length_append a.cells b.cells
  · show (a.cells ++ b.cells).length ≤ a.cells.length + b.cells.length
    rw [List.length_append]

/-- C7: a two-column codepoint whose glyph would start at the last
column of row `y` is clipped (its continuation cell falls outside the
row) and no cell of any other row — in particular the following row —
is modified: drawing never wraps implicitly. -/
theorem drawText_wide_glyph_clips_no_wrap (buf : OptimizedBuffer)
    (wfn : ℕ → ℕ) (cp : ℕ) (x y : ℕ) (fg bg : RGBA) (attributes : ℕ)
    (x' y' : ℕ) (hwide : wfn cp = 2) (hlast : x + 1 = buf.width)
    (hx' : x' < buf.width) (hrow : y' ≠ y) :
    bufferDrawText buf wfn [cp] x y fg bg attributes =
      bufferSetCellWithAlphaBlending buf x y cp fg bg attributes ∧
    (bufferDrawText buf wfn [cp] x y fg bg attributes).getCell x' y' =
      buf.getCell x' y' := by
  refine ⟨?_, drawText_getCell_other_row wfn [cp] buf x y fg bg attributes
    x' y' hx' hrow⟩
  have hoob : bufferSetCellWithAlphaBlending
      (bufferSetCellWithAlphaBlending buf x y cp fg bg attributes)
      (x + 1) y 0 fg bg attributes =
      bufferSetCellWithAlphaBlending buf x y cp fg bg attributes :=
    setCellWithAlphaBlending_oob _ _ _ _ _ _ _ (fun hc => by
      rw [setCellWithAlphaBlending_width] at hc
      omega)
  show (if wfn cp = 2 then
      bufferSetCellWithAlphaBlending
        (bufferSetCellWithAlphaBlending buf x y cp fg bg attributes)
        (x + 1) y 0 fg bg attributes
    else bufferSetCellWithAlphaBlending buf x y cp fg bg attributes) = _
  rw [if_pos hwide, hoob]

/-- Closed instance of C7: a CJK glyph at the last column of row 0 of
the 2x2 fixture leaves cell `(0,1)` of the next row untouched. -/
theorem drawText_wide_glyph_clips_no_wrap_witness :
    (bufferDrawText buf2x2 cjkWidthModel [0x4E00] 1 0 white black
      0).getCell 0 1 = buf2x2.getCell 0 1 :=
  (drawText_wide_glyph_clips_no_wrap buf2x2 cjkWidthModel 0x4E00 1 0 white
    black 0 0 1 (by decide) rfl (by decide) (by decide)).2

/-- C9: out-of-bounds drawing is silent clipping, never failure:
`setCellWithAlphaBlending` outside the bounds leaves the buffer
completely unchanged (and reports nothing — its result carries no
error), and `drawText` aimed at a row beyond the buffer likewise
leaves it unchanged. -/
theorem setCellWithAlphaBlending_oob_noop (buf : OptimizedBuffer)
    (x y ch : ℕ) (fg bg : RGBA) (attributes : ℕ) (wfn : ℕ → ℕ)
    (cps : List ℕ) (h : ¬(x < buf.width ∧ y < buf.height)) :
    bufferSetCellWithAlphaBlending buf x y ch fg bg attributes = buf ∧
    (buf.height ≤ y →
      bufferDrawText buf wfn cps x y fg bg attributes = buf) :=
  ⟨setCellWithAlphaBlending_oob buf x y ch fg bg attributes h,
    fun hy => drawText_row_oob wfn cps buf x y fg bg attributes hy⟩

/-- Closed instance of C9: writing at `(5,7)` in the 1x1 fixture is a
no-op, as is drawing text there. -/
theorem setCellWithAlphaBlending_oob_noop_witness :
    bufferSetCellWithAlphaBlending bufA 5 7 66 white black 0 = bufA ∧
    bufferDrawText bufA cjkWidthModel [66] 5 7 white black 0 = bufA :=
  ⟨(setCellWithAlphaBlending_oob_noop bufA 5 7 66 white black 0
      cjkWidthModel [66] (by decide)).1,
    (setCellWithAlphaBlending_oob_noop bufA 5 7 66 white black 0
      cjkWidthModel [66] (by decide)).2 (by decide)⟩

/-- C10: the hit-test API is asymmetric: `addToHitGrid` takes signed
origins while `checkHit` only takes unsigned coordinates, so `checkHit`
is total over them — returning 0 beyond the grid instead of failing —
and a rectangle stamped with a (possibly negative) origin is observable
exactly on its clipped non-negative intersection with the grid. -/
theorem hitGrid_signed_unsigned_asymmetry :
    (∀ (g : HitGrid) (x y : ℕ), ¬(x < g.width ∧ y < g.height) →
      checkHit g x y = 0) ∧
    (∀ (w h : ℕ) (x0 y0 : ℤ) (rw rh sid : ℕ) (x y : ℕ),
      x < w → y < h →
      checkHit (addToHitGrid (createHitGrid w h) x0 y0 rw rh sid) x y =
        if inRect x0 y0 rw rh x y = true then sid else 0) := by
  constructor
  · exact fun g x y h => checkHit_oob g x y h
  · intro w h x0 y0 rw rh sid x y hx hy
    rw [checkHit_addToHitGrid (createHitGrid w h) x0 y0 rw rh sid x y hx hy,
      checkHit_createHitGrid]

/-- Closed instance of C10: probing beyond a 4x4 grid yields 0, and a
stamp anchored at `(-2,-2)` with extent 4x4 is visible at `(1,1)`. -/
theorem hitGrid_signed_unsigned_asymmetry_witness :
    checkHit (createHitGrid 4 4) 9 0 = 0 ∧
    checkHit (addToHitGrid (createHitGrid 4 4) (-2) (-2) 4 4 7) 1 1 = 7 := by
  constructor
  · exact hitGrid_signed_unsigned_asymmetry.1 (createHitGrid 4 4) 9 0
      (by decide)
  · rw [hitGrid_signed_unsigned_asymmetry.2 4 4 (-2) (-2) 4 4 7 1 1
      (by decide) (by decide)]
    decide

/-- C8 as stated is false of the §4.1 contract: a write whose incoming
background is fully transparent still applies the incoming foreground.
Writing opaque white fg with bg `(1,1,1,0)` onto the black-on-black 1x1
fixture changes the cell's foreground. -/
theorem setCellWithAlphaBlending_transparent_bg_changes_fg :
    ((bufferSetCellWithAlphaBlending bufA 0 0 0 white ⟨1, 1, 1, 0⟩
        0).getCell 0 0).fg ≠ (bufA.getCell 0 0).fg := by
  decide

/-- C8 amended: with `respectAlpha` and an incoming background of alpha
exactly 0, the cell's background color is unchanged (given the stored
alpha is within `[0,1]`) and an empty incoming codepoint preserves the
glyph; the incoming foreground, however, is still applied — overwritten
when its alpha is 1, otherwise blended against the unchanged
background. -/
theorem setCellWithAlphaBlending_transparent_bg_preserves_bg
    (buf : OptimizedBuffer) (x y ch : ℕ) (fg bg : RGBA) (attributes : ℕ)
    (hwf : buf.wf) (hx : x < buf.width) (hy : y < buf.height)
    (hra : buf.respectAlpha = true) (h0 : bg.a = 0)
    (hdst : (buf.getCell x y).bg.a ≤ 1) :
    ((bufferSetCellWithAlphaBlending buf x y ch fg bg
        attributes).getCell x y).bg = (buf.getCell x y).bg ∧
    (ch = 0 →
      ((bufferSetCellWithAlphaBlending buf x y ch fg bg
          attributes).getCell x y).codepoint =
        (buf.getCell x y).codepoint) ∧
    ((bufferSetCellWithAlphaBlending buf x y ch fg bg
        attributes).getCell x y).fg =
      (if fg.a < 1 then blendColors fg (buf.getCell x y).bg else fg) := by
  have hcond : ¬(¬buf.respectAlpha = true ∨ bg.a = 1) := by
    rw [hra, h0]
    norm_num
  have hblend : blendColors bg (buf.getCell x y).bg =
      (buf.getCell x y).bg :=
    blendColors_transparent bg ((buf.getCell x y).bg) h0 hdst
  rw [setCellWithAlphaBlending_getCell_self buf x y ch fg bg attributes
    hwf hx hy, if_neg hcond]
  refine ⟨hblend, fun hch => by simp [hch], ?_⟩
  show (if fg.a < 1 then blendColors fg (blendColors bg
      (buf.getCell x y).bg) else fg) = _
  rw [hblend]

/-- Closed instance of the amended C8: a fully transparent background
write on the 1x1 fixture keeps its background opaque black. -/
theorem setCellWithAlphaBlending_transparent_bg_preserves_bg_witness :
    ((bufferSetCellWithAlphaBlending bufA 0 0 0 white ⟨1, 1, 1, 0⟩
        0).getCell 0 0).bg = (bufA.getCell 0 0).bg :=
  (setCellWithAlphaBlending_transparent_bg_preserves_bg bufA 0 0 0 white
    ⟨1, 1, 1, 0⟩ 0 rfl (by decide) (by decide) rfl rfl
    (by norm_num [bufA, black, OptimizedBuffer.getCell])).1

